import Mathlib

/-!
Verification development for the f1-superfan capture/inference pipeline.

Each definition below is a shallow embedding of a function of the source
repository (file and line references in the doc comments).  Machine-level
details that the claims do not touch (logging text, wall-clock timestamps,
actual image bytes, network transport) are abstracted as parameters, never
invented.
-/

/-- Model of a parsed JSON value as produced by Python's `json.loads`.
Objects keep their key/value pairs in textual order.  Numeric literals are
restricted to integers, the only numeric shape the pipeline's extraction
schemas and the claims exercise. -/
inductive Json where
  | null : Json
  | bool : Bool → Json
  | num : Int → Json
  | str : String → Json
  | arr : List Json → Json
  | obj : List (String × Json) → Json

/-- Character constant for an opening curly brace. -/
def lbrace : Char := Char.ofNat 123

/-- Character constant for a closing curly brace. -/
def rbrace : Char := Char.ofNat 125

/-- Whitespace characters skipped by Python's JSON decoder. -/
def isWsChar (c : Char) : Bool :=
  c = ' ' || c = '\t' || c = '\n' || c = '\r'

/-- Drop leading JSON whitespace. -/
def skipWs : List Char → List Char
  | [] => []
  | c :: cs => if isWsChar c then skipWs cs else c :: cs

/-- Resolve a single-character JSON string escape (the `\\uXXXX` form is
outside the modelled fragment and is rejected). -/
def escChar (e : Char) : Option Char :=
  if e = '"' then some '"'
  else if e = '\\' then some '\\'
  else if e = '/' then some '/'
  else if e = 'n' then some '\n'
  else if e = 't' then some '\t'
  else if e = 'r' then some '\r'
  else if e = 'b' then some (Char.ofNat 8)
  else if e = 'f' then some (Char.ofNat 12)
  else none

/-- Parse the body of a JSON string literal (the opening quote already
consumed), returning the decoded characters and the remaining input.
Unescaped control characters are rejected, as in Python's strict mode. -/
def parseStrChars : List Char → Option (List Char × List Char)
  | [] => none
  | c :: cs =>
    if c = '"' then some ([], cs)
    else if c = '\\' then
      match cs with
      | [] => none
      | e :: cs2 =>
        match escChar e with
        | none => none
        | some r =>
          match parseStrChars cs2 with
          | none => none
          | some (s, rest) => some (r :: s, rest)
    else if c.toNat < 32 then none
    else
      match parseStrChars cs with
      | none => none
      | some (s, rest) => some (c :: s, rest)

/-- Decimal value of a digit list. -/
def digitsToNat (ds : List Char) : Nat :=
  ds.foldl (fun a c => a * 10 + (c.toNat - 48)) 0

/-- Parse an integer JSON numeral.  Leading zeros are rejected and a
fractional or exponent continuation falls outside the modelled integer
fragment. -/
def parseNumber (cs : List Char) : Option (Json × List Char) :=
  let neg := cs.headD ' ' = '-'
  let cs1 := if neg then cs.tail else cs
  let ds := cs1.takeWhile (fun c => c.isDigit)
  let rest := cs1.dropWhile (fun c => c.isDigit)
  if ds.isEmpty then none
  else if 1 < ds.length && ds.headD '0' = '0' then none
  else if rest.headD ' ' = '.' || rest.headD ' ' = 'e' || rest.headD ' ' = 'E' then none
  else
    let n : Int := Int.ofNat (digitsToNat ds)
    some (Json.num (if neg then -n else n), rest)

mutual

/-- Recursive-descent JSON value parser (fuel-indexed for termination).
Faithful to Python's strict decoder on the modelled fragment: in
particular a comma must be followed by a further member/item, so trailing
commas before a closing brace or bracket are parse errors. -/
def parseValue : Nat → List Char → Option (Json × List Char)
  | 0, _ => none
  | Nat.succ fuel, cs =>
    match skipWs cs with
    | [] => none
    | c :: rest =>
      if c = lbrace then
        match skipWs rest with
        | c2 :: rest2 =>
          if c2 = rbrace then some (Json.obj [], rest2)
          else
            match parseMembers fuel (c2 :: rest2) with
            | none => none
            | some (ms, rest3) => some (Json.obj ms, rest3)
        | [] => none
      else if c = '[' then
        match skipWs rest with
        | c2 :: rest2 =>
          if c2 = ']' then some (Json.arr [], rest2)
          else
            match parseItems fuel (c2 :: rest2) with
            | none => none
            | some (xs, rest3) => some (Json.arr xs, rest3)
        | [] => none
      else if c = '"' then
        match parseStrChars rest with
        | none => none
        | some (s, rest2) => some (Json.str (String.mk s), rest2)
      else if c = 't' then
        match rest with
        | 'r' :: 'u' :: 'e' :: rest2 => some (Json.bool true, rest2)
        | _ => none
      else if c = 'f' then
        match rest with
        | 'a' :: 'l' :: 's' :: 'e' :: rest2 => some (Json.bool false, rest2)
        | _ => none
      else if c = 'n' then
        match rest with
        | 'u' :: 'l' :: 'l' :: rest2 => some (Json.null, rest2)
        | _ => none
      else if c = '-' || c.isDigit then parseNumber (c :: rest)
      else none

/-- Parse one or more `"key": value` members of a JSON object, up to and
including the closing brace. -/
def parseMembers : Nat → List Char → Option (List (String × Json) × List Char)
  | 0, _ => none
  | Nat.succ fuel, cs =>
    match skipWs cs with
    | c :: rest =>
      if c = '"' then
        match parseStrChars rest with
        | none => none
        | some (k, rest2) =>
          match skipWs rest2 with
          | c2 :: rest3 =>
            if c2 = ':' then
              match parseValue fuel rest3 with
              | none => none
              | some (v, rest4) =>
                match skipWs rest4 with
                | c3 :: rest5 =>
                  if c3 = ',' then
                    match parseMembers fuel rest5 with
                    | none => none
                    | some (ms, rest6) => some ((String.mk k, v) :: ms, rest6)
                  else if c3 = rbrace then some ([(String.mk k, v)], rest5)
                  else none
                | [] => none
            else none
          | [] => none
      else none
    | [] => none

/-- Parse one or more items of a JSON array, up to and including the
closing bracket. -/
def parseItems : Nat → List Char → Option (List Json × List Char)
  | 0, _ => none
  | Nat.succ fuel, cs =>
    match parseValue fuel cs with
    | none => none
    | some (v, rest) =>
      match skipWs rest with
      | c :: rest2 =>
        if c = ',' then
          match parseItems fuel rest2 with
          | none => none
          | some (xs, rest3) => some (v :: xs, rest3)
        else if c = ']' then some ([v], rest2)
        else none
      | [] => none

end

/-- Model of Python's `json.loads` on the modelled fragment: parse one
value and require only whitespace afterwards, failing (`none`, standing
for `json.JSONDecodeError`) on anything malformed. -/
def json_loads (s : String) : Option Json :=
  match parseValue (s.length + 1) s.data with
  | none => none
  | some (v, rest) => if (skipWs rest).isEmpty then some v else none

/-- Keys of a JSON object's member list, in order.  Python's `key in data`
membership test on a `dict` corresponds to membership in this list. -/
def objKeys (fields : List (String × Json)) : List String :=
  fields.map Prod.fst

/-- Embedding of `validate_json_structure` (src/src/utils.py:28-37): a
non-dictionary is rejected outright; otherwise the keys of
`required_keys` absent from the data are collected (all of them, in
order) and reported in a single message, and success returns
`(True, None)`. -/
def validate_json_structure (data : Json) (required_keys : List String) : Bool × Option String :=
  match data with
  | Json.obj fields =>
    let missing_keys := required_keys.filter (fun k => decide (k ∉ objKeys fields))
    if missing_keys.isEmpty then (true, none)
    else (false, some ("Missing required keys: " ++ String.intercalate ", " missing_keys))
  | _ => (false, some "Data is not a valid dictionary")

/-- Embedding of `InferenceWorker._get_required_keys`
(src/src/inference_worker.py:239-254): a literal three-entry map with the
empty list as the `dict.get` default for any other extraction type. -/
def _get_required_keys (extraction_type : String) : List String :=
  if extraction_type = "current_lap" then ["lap_number"]
  else if extraction_type = "timing_table" then ["timing_table"]
  else if extraction_type = "tire_info" then []
  else []

/-- Embedding of the response handling inside `InferenceWorker._process_image`
(src/src/inference_worker.py:216): the raw LLM response text is handed
directly to `json.loads`; no sanitation of any kind (fence stripping,
trailing-comma repair, whitespace fixing beyond what the JSON grammar
allows) happens before parsing. -/
def code_response_parse (raw : String) : Option Json :=
  json_loads raw

/-- Embedding of the body of the per-prompt loop of
`InferenceWorker._process_image` (src/src/inference_worker.py:209-237)
for a single `(extraction_type, prompt)` pair: dispatch the LLM call
(abstracted as the function `llm`, returning `none` on any failure as
`_call_llm` does), parse the response, and validate it when the
extraction type's required-key list is non-empty.  Any failure yields
`none`, which in the source is `return None` aborting the whole image. -/
def promptStep (llm : String → String → Option String) (image_path : String)
    (extraction_type : String) (prompt : String) : Option Json :=
  match llm image_path prompt with
  | none => none
  | some response_text =>
    match code_response_parse response_text with
    | none => none
    | some response_data =>
      let required_keys := _get_required_keys extraction_type
      if required_keys.isEmpty then some response_data
      else if (validate_json_structure response_data required_keys).1 then some response_data
      else none

/-- Result record built by `_process_image`
(src/src/inference_worker.py:196-201): image filename, processing
timestamp, and the aggregate mapping from extraction type to parsed
response. -/
structure ExtractionResults where
  image_filename : String
  timestamp : String
  extractions : List (String × Json)

/-- Split a character list on a separator character (kept structural so
that concrete runs reduce definitionally). -/
def splitOnChar (sep : Char) : List Char → List (List Char)
  | [] => [[]]
  | c :: cs =>
    match splitOnChar sep cs with
    | [] => [[c]]
    | g :: gs => if c = sep then [] :: g :: gs else (c :: g) :: gs

/-- Path basename, as `os.path.basename` on the slash-separated paths the
worker builds. -/
def basename (p : String) : String :=
  String.mk ((splitOnChar '/' p.data).getLastD p.data)

/-- Helper for `_process_image`: fold the configured prompts in order,
aborting with `none` as soon as any prompt's step fails. -/
def processPrompts (llm : String → String → Option String) (image_path : String) :
    List (String × String) → List (String × Json) → Option (List (String × Json))
  | [], acc => some acc
  | (extraction_type, prompt) :: rest, acc =>
    match promptStep llm image_path extraction_type prompt with
    | none => none
    | some d => processPrompts llm image_path rest (acc ++ [(extraction_type, d)])

/-- Embedding of `InferenceWorker._process_image`
(src/src/inference_worker.py:184-237).  `llm` abstracts `_call_llm`,
`ts` the `datetime.now().isoformat()` stamp, and `prompts` the
configured `(extraction_type, prompt)` pairs in their configured
(dict-insertion) order.  The source returns `None` on the first failing
prompt and otherwise the aggregated result. -/
def _process_image (llm : String → String → Option String) (ts : String)
    (image_path : String) (prompts : List (String × String)) : Option ExtractionResults :=
  match processPrompts llm image_path prompts [] with
  | none => none
  | some extractions =>
    some { image_filename := basename image_path, timestamp := ts, extractions := extractions }

/-- Per-sweep environment for the monitor loop, abstracting the outcomes
of its collaborators for each filename: the result of
`_process_image` (`procResult`), whether `save_extraction_results`
raises (`dbOk` false means it raises, with exception text `dbErr`), and
whether `os.rename` in `_move_file` succeeds (`moveOk`). -/
structure Oracle where
  procResult : String → Option ExtractionResults
  dbOk : String → Bool
  dbErr : String → String
  moveOk : String → Bool

/-- Observable state of the inference worker and its directories:
the filenames in the input directory, the in-memory
`self.processed_files` claimed-set, the two terminal directories, the
`_log_error` records written so far as (filename, error_type,
error_message) triples, and the arguments of every
`save_extraction_results` call made so far. -/
structure WorkerState where
  input : List String
  claimed : List String
  failedDir : List String
  processedDir : List String
  errorLogs : List (String × String × String)
  saveCalls : List ExtractionResults

/-- Embedding of the per-file body of `InferenceWorker._monitor_loop`
(src/src/inference_worker.py:316-348) together with `_move_file`
(src/src/inference_worker.py:285-303).  Returns the new state and
whether a processing attempt on the file was made.  Mirrors the source
exactly: the claimed-set is consulted first and extended only on
processing success (before the database call); a processing failure
logs a `PROCESSING_FAILED` record and attempts a move to the failed
directory; a database failure logs a `DATABASE_ERROR` record and
`continue`s without moving the file; a failed `os.rename` leaves the
file in the input directory. -/
def monitorHandleFile (o : Oracle) (db : Bool) (st : WorkerState) (f : String) :
    WorkerState × Bool :=
  if f ∈ st.claimed then (st, false)
  else
    match o.procResult f with
    | none =>
      if o.moveOk f then
        (⟨st.input.erase f, st.claimed, st.failedDir ++ [f], st.processedDir,
          st.errorLogs ++ [(f, "PROCESSING_FAILED", "Image processing failed")],
          st.saveCalls⟩, true)
      else
        (⟨st.input, st.claimed, st.failedDir, st.processedDir,
          st.errorLogs ++ [(f, "PROCESSING_FAILED", "Image processing failed")],
          st.saveCalls⟩, true)
    | some results =>
      if db then
        if o.dbOk f then
          if o.moveOk f then
            (⟨st.input.erase f, st.claimed ++ [f], st.failedDir, st.processedDir ++ [f],
              st.errorLogs, st.saveCalls ++ [results]⟩, true)
          else
            (⟨st.input, st.claimed ++ [f], st.failedDir, st.processedDir,
              st.errorLogs, st.saveCalls ++ [results]⟩, true)
        else
          (⟨st.input, st.claimed ++ [f], st.failedDir, st.processedDir,
            st.errorLogs ++ [(f, "DATABASE_ERROR", "Failed to save to database: " ++ o.dbErr f)],
            st.saveCalls ++ [results]⟩, true)
      else
        if o.moveOk f then
          (⟨st.input.erase f, st.claimed ++ [f], st.failedDir, st.processedDir ++ [f],
            st.errorLogs, st.saveCalls⟩, true)
        else
          (⟨st.input, st.claimed ++ [f], st.failedDir, st.processedDir,
            st.errorLogs, st.saveCalls⟩, true)

/-- Suffix test on character lists. -/
def endsWithChars (suf s : List Char) : Bool :=
  List.isPrefixOf suf.reverse s.reverse

/-- Image-suffix filter of `_monitor_loop`
(src/src/inference_worker.py:318-319): lowercase name ends with `.png`,
`.jpg` or `.jpeg`. -/
def isImage (f : String) : Bool :=
  let l := f.data.map Char.toLower
  endsWithChars ".png".data l || endsWithChars ".jpg".data l || endsWithChars ".jpeg".data l

/-- Iterate `monitorHandleFile` over the snapshot of directory entries a
sweep took at its start, accumulating the list of attempted filenames in
order. -/
def sweepGo (o : Oracle) (db : Bool) : List String → WorkerState → WorkerState × List String
  | [], st => (st, [])
  | f :: fs, st =>
    let p := monitorHandleFile o db st f
    let q := sweepGo o db fs p.1
    (q.1, (if p.2 then [f] else []) ++ q.2)

/-- One sweep of `_monitor_loop`: list the image files currently in the
input directory, then handle each in listing order. -/
def sweep (o : Oracle) (db : Bool) (st : WorkerState) : WorkerState × List String :=
  sweepGo o db (st.input.filter isImage) st

/-- A run of consecutive monitor sweeps, one oracle per sweep, returning
the final state and the concatenated trace of processing attempts. -/
def runSweeps (db : Bool) : List Oracle → WorkerState → WorkerState × List String
  | [], st => (st, [])
  | o :: os, st =>
    let p := sweep o db st
    let q := runSweeps db os p.1
    (q.1, p.2 ++ q.2)

/-- Strip leading and trailing JSON whitespace from a character list. -/
def trimWsChars (s : List Char) : List Char :=
  (skipWs (skipWs s.reverse).reverse)

/-- A line that is purely a fenced-code-block marker: after trimming it
starts with three backticks. -/
def isFenceLine (l : List Char) : Bool :=
  List.isPrefixOf "```".data (trimWsChars l)

/-- Sanitizer step described by the spec (there is no counterpart in the
source): when the first and last line are pure fence markers, remove
both. -/
def spec_strip_fence (raw : String) : String :=
  let ls := splitOnChar '\n' raw.data
  if 2 ≤ ls.length && isFenceLine (ls.headD []) && isFenceLine (ls.getLastD []) then
    String.intercalate "\n" (((ls.drop 1).dropLast).map String.mk)
  else raw

/-- Sanitizer step described by the spec (no counterpart in the source):
single pass dropping any comma whose next non-whitespace character is a
closing brace or bracket. -/
def spec_remove_trailing_commas : List Char → List Char
  | [] => []
  | c :: rest =>
    if c = ',' then
      match skipWs rest with
      | d :: _ =>
        if d = rbrace || d = ']' then spec_remove_trailing_commas rest
        else c :: spec_remove_trailing_commas rest
      | [] => c :: spec_remove_trailing_commas rest
    else c :: spec_remove_trailing_commas rest

/-- The `sanitize(raw)` operation exactly as the spec words it
(spec section 4.5).  Defined only to be compared with the code's actual
response handling `code_response_parse`; the source has no such
function. -/
def spec_sanitize (raw : String) : String :=
  String.mk (spec_remove_trailing_commas (spec_strip_fence raw).data)

/-- Frame contents, modelled as the list of pixel bytes of the numpy
array. -/
def Frame := List Nat

/-- Heap-style model of frame aliasing in `ImageProcessor`
(src/src/image_processor.py): `cells` are the allocated numpy buffers
and `buf` is the index held by `self.current_frame` (`none` before any
successful capture).  Explicit cells let the development state that the
copies handed out by reads are independent of the held buffer. -/
structure FrameStore where
  cells : List Frame
  buf : Option Nat

/-- Store at `ImageProcessor.__init__`: `self.current_frame = None`. -/
def emptyStore : FrameStore := { cells := [], buf := none }

/-- Embedding of the publish step of `ImageProcessor._capture_loop`
(src/src/image_processor.py:107-125): under the lock,
`self.current_frame = frame.copy()` — a fresh buffer is allocated with
the captured contents and the held reference is repointed at it. -/
def publish (st : FrameStore) (contents : Frame) : FrameStore :=
  { cells := st.cells ++ [contents], buf := some st.cells.length }

/-- Contents a cell index refers to (empty frame for a dangling index,
which never arises in the modelled runs). -/
def cellAt (st : FrameStore) (i : Nat) : Frame :=
  st.cells.getD i []

/-- Contents currently held by the buffer, if any. -/
def readBufContents (st : FrameStore) : Option Frame :=
  st.buf.map (cellAt st)

/-- Embedding of `ImageProcessor.get_current_frame`
(src/src/image_processor.py:127-129): under the lock, return
`self.current_frame.copy()` — a fresh independent buffer with the held
contents — or `None` if no frame was ever published.  The function is
total: it answers immediately from the held state and never waits for a
fresh frame. -/
def get_current_frame (st : FrameStore) : FrameStore × Option Nat :=
  match st.buf with
  | none => (st, none)
  | some i => ({ st with cells := st.cells ++ [cellAt st i] }, some st.cells.length)

/-- In-place mutation of an allocated frame buffer (what a caller could
do to the numpy array a read handed it). -/
def mutateCell (st : FrameStore) (i : Nat) (contents : Frame) : FrameStore :=
  { st with cells := st.cells.set i contents }

/-- A sequence of publishes by the capture loop. -/
def publishAll (st : FrameStore) (frames : List Frame) : FrameStore :=
  frames.foldl publish st

/-- Embedding of `periodic_control.periodic_enabled`
(src/src/periodic_control.py:13-14): a `threading.Event` created and
immediately `set()`, so the flag defaults to enabled. -/
def periodic_enabled_default : Bool := true

/-- Mode gate at the top of `F1SuperfanApp._periodic_capture_loop`
(src/main.py:64-71): the loop body is entered only when the configured
capture mode is `periodic` or `both`; in particular `manual` returns
immediately. -/
def periodic_mode_active (mode : String) : Bool :=
  mode = "periodic" || mode = "both"

/-- Embedding of the `while self.running` iteration structure of
`_periodic_capture_loop` (src/main.py:72-95).  Each list entry is the
pair (running flag, periodic_enabled flag) observed at one iteration;
the loop performs one capture tick per iteration while `running` holds.
The source never reads `periodic_enabled`, which is why the second
component is unused here. -/
def loop_ticks : List (Bool × Bool) → Nat
  | [] => 0
  | s :: rest => if s.1 then 1 + loop_ticks rest else 0

/-- Number of capture ticks `_periodic_capture_loop` performs for a given
mode and sequence of (running, enabled) observations, where the enabled
component records whether `periodic_enabled` is set at that iteration. -/
def periodic_ticks (mode : String) (states : List (Bool × Bool)) : Nat :=
  if periodic_mode_active mode then loop_ticks states else 0

/-- Wiring fact from `F1SuperfanApp.initialize_components`
(src/main.py:55-58): the inference worker is constructed as
`InferenceWorker(self.config, database_handler=None)`, so no database
handler is present in the application's main configuration. -/
def main_database_handler_present : Bool := false

/-- Concrete LLM stub for the two-prompt scenario of C1: the first prompt
answers a valid `current_lap` object and the second answers an object
missing the `timing_table` required key. -/
def c1_llm : String → String → Option String :=
  fun _ p => if p = "p1" then some "\x7b\"lap_number\": 3\x7d" else some "\x7b\"nope\": 1\x7d"

/-- Concrete prompt configuration for C1: two extraction types in order. -/
def c1_prompts : List (String × String) :=
  [("current_lap", "p1"), ("timing_table", "p2")]

/-- Oracle for C1: processing outcome given by `_process_image` on the
two-prompt scenario, database save succeeding, moves succeeding. -/
def c1_oracle : Oracle :=
  ⟨fun _ => _process_image c1_llm "T" "data/input/img.jpg" c1_prompts,
   fun _ => true, fun _ => "", fun _ => true⟩

/-- Oracle for C1's dispatch-failure contrast: every LLM call fails. -/
def c1_dispatch_oracle : Oracle :=
  ⟨fun _ => _process_image (fun _ _ => none) "T" "data/input/img.jpg" c1_prompts,
   fun _ => true, fun _ => "", fun _ => true⟩

/-- Fresh worker state with one image in the input directory (C1). -/
def c1_state : WorkerState := ⟨["img.jpg"], [], [], [], [], []⟩

/-- Extraction result of the successfully processed image of the C2
scenario. -/
def c2_results : ExtractionResults := ⟨"b.jpg", "T", []⟩

/-- Oracle for C2: processing succeeds, the database save raises, moves
would succeed. -/
def c2_oracle : Oracle :=
  ⟨fun _ => some c2_results, fun _ => false, fun _ => "disk full", fun _ => true⟩

/-- Fresh worker state with one image in the input directory (C2). -/
def c2_state : WorkerState := ⟨["b.jpg"], [], [], [], [], []⟩

/-- Oracle for C4's counterexample: processing fails and the move of the
failed file out of the input directory also fails. -/
def c4_stuck_oracle : Oracle :=
  ⟨fun _ => none, fun _ => true, fun _ => "", fun _ => false⟩

/-- Oracle for C4's witness: processing fails but moves succeed. -/
def c4_move_oracle : Oracle :=
  ⟨fun _ => none, fun _ => true, fun _ => "", fun _ => true⟩

/-- Fresh worker state with one image in the input directory (C4). -/
def c4_state : WorkerState := ⟨["a.jpg"], [], [], [], [], []⟩

/-- Concrete LLM stub for C9: both prompts answer valid objects carrying
their required keys. -/
def c9_llm : String → String → Option String :=
  fun _ p => if p = "p1" then some "\x7b\"lap_number\": 3\x7d"
             else some "\x7b\"timing_table\": []\x7d"

/-- Concrete prompt configuration for C9. -/
def c9_prompts : List (String × String) :=
  [("current_lap", "p1"), ("timing_table", "p2")]

/-- Oracle for C9: processing outcome given by `_process_image` on the
all-successful scenario, moves succeeding. -/
def c9_oracle : Oracle :=
  ⟨fun _ => _process_image c9_llm "T" "data/input/img.jpg" c9_prompts,
   fun _ => true, fun _ => "", fun _ => true⟩

/-- Fresh worker state with one image in the input directory (C9). -/
def c9_state : WorkerState := ⟨["img.jpg"], [], [], [], [], []⟩

theorem mhf_skip (o : Oracle) (db : Bool) (st : WorkerState) (f : String)
    (h : f ∈ st.claimed) : monitorHandleFile o db st f = (st, false) := by
  simp [monitorHandleFile, h]

theorem mhf_input_sublist (o : Oracle) (db : Bool) (st : WorkerState) (f : String) :
    List.Sublist (monitorHandleFile o db st f).1.input st.input := by
  simp only [monitorHandleFile]
  split
  · exact List.Sublist.refl _
  · split
    · split
      · exact List.erase_sublist _ _
      · exact List.Sublist.refl _
    · split
      · split
        · split
          · exact List.erase_sublist _ _
          · exact List.Sublist.refl _
        · exact List.Sublist.refl _
      · split
        · exact List.erase_sublist _ _
        · exact List.Sublist.refl _

theorem mhf_claimed_mono (o : Oracle) (db : Bool) (st : WorkerState) (f : String) :
    ∀ x ∈ st.claimed, x ∈ (monitorHandleFile o db st f).1.claimed := by
  intro x hx
  simp only [monitorHandleFile]
  split
  · exact hx
  · split
    · split
      · exact hx
      · exact hx
    · split
      · split
        · split
          · exact List.mem_append_left _ hx
          · exact List.mem_append_left _ hx
        · exact List.mem_append_left _ hx
      · split
        · exact List.mem_append_left _ hx
        · exact List.mem_append_left _ hx

theorem mhf_attempt_not_claimed (o : Oracle) (db : Bool) (st : WorkerState) (f : String) :
    (monitorHandleFile o db st f).2 = true → f ∉ st.claimed := by
  intro h hf
  rw [mhf_skip o db st f hf] at h
  simp at h

theorem mhf_attempt_post (o : Oracle) (db : Bool) (st : WorkerState) (f : String)
    (hmv : o.moveOk f = true) (hnd : st.input.Nodup) :
    f ∉ (monitorHandleFile o db st f).1.input ∨ f ∈ (monitorHandleFile o db st f).1.claimed := by
  have herase : f ∉ st.input.erase f := by
    intro hc
    exact (hnd.mem_erase_iff.mp hc).1 rfl
  simp only [monitorHandleFile, hmv]
  split
  · right; assumption
  · split
    · left; exact herase
    · split
      · split
        · right; exact List.mem_append_right _ (by simp)
        · right; exact List.mem_append_right _ (by simp)
      · right; exact List.mem_append_right _ (by simp)

theorem mhf_saveCalls_nodb (o : Oracle) (st : WorkerState) (f : String) :
    (monitorHandleFile o false st f).1.saveCalls = st.saveCalls := by
  simp only [monitorHandleFile]
  split
  · rfl
  · split
    · split
      · rfl
      · rfl
    · rw [if_neg Bool.false_ne_true]
      split
      · rfl
      · rfl

theorem sweepGo_spec (o : Oracle) (db : Bool) (hmv : ∀ g, o.moveOk g = true) :
    ∀ (fs : List String) (st : WorkerState), st.input.Nodup →
      List.Sublist (sweepGo o db fs st).1.input st.input ∧
      (∀ x ∈ st.claimed, x ∈ (sweepGo o db fs st).1.claimed) ∧
      List.Sublist (sweepGo o db fs st).2 fs ∧
      (∀ g ∈ (sweepGo o db fs st).2, g ∉ st.claimed) ∧
      (∀ g ∈ (sweepGo o db fs st).2,
        g ∉ (sweepGo o db fs st).1.input ∨ g ∈ (sweepGo o db fs st).1.claimed) := by
  intro fs
  induction fs with
  | nil =>
    intro st hnd
    refine ⟨List.Sublist.refl _, fun x hx => hx, List.nil_sublist _, ?_, ?_⟩ <;>
      intro g hg <;> simp [sweepGo] at hg
  | cons f fs ih =>
    intro st hnd
    have hPin := mhf_input_sublist o db st f
    have hPnd : (monitorHandleFile o db st f).1.input.Nodup := hnd.sublist hPin
    obtain ⟨q_in, q_cl, q_tr, q_nc, q_post⟩ := ih (monitorHandleFile o db st f).1 hPnd
    have hEq : sweepGo o db (f :: fs) st
        = ((sweepGo o db fs (monitorHandleFile o db st f).1).1,
           (if (monitorHandleFile o db st f).2 then [f] else [])
             ++ (sweepGo o db fs (monitorHandleFile o db st f).1).2) := rfl
    rw [hEq]
    refine ⟨q_in.trans hPin, fun x hx => q_cl x (mhf_claimed_mono o db st f x hx), ?_, ?_, ?_⟩
    · by_cases h2 : (monitorHandleFile o db st f).2 = true
      · rw [h2]
        simpa using List.Sublist.cons₂ f q_tr
      · have h2f : (monitorHandleFile o db st f).2 = false := by simpa using h2
        rw [h2f]
        simpa using List.Sublist.cons f q_tr
    · intro g hg
      by_cases h2 : (monitorHandleFile o db st f).2 = true
      · rw [h2] at hg
        simp at hg
        rcases hg with he | htr
        · subst he
          exact mhf_attempt_not_claimed o db st g h2
        · intro hc
          exact q_nc g htr (mhf_claimed_mono o db st f g hc)
      · have h2f : (monitorHandleFile o db st f).2 = false := by simpa using h2
        rw [h2f] at hg
        simp at hg
        intro hc
        exact q_nc g hg (mhf_claimed_mono o db st f g hc)
    · intro g hg
      by_cases h2 : (monitorHandleFile o db st f).2 = true
      · rw [h2] at hg
        simp at hg
        rcases hg with he | htr
        · subst he
          rcases mhf_attempt_post o db st g (hmv g) hnd with hni | hcl
          · left; intro hc; exact hni (q_in.subset hc)
          · right; exact q_cl _ hcl
        · exact q_post g htr
      · have h2f : (monitorHandleFile o db st f).2 = false := by simpa using h2
        rw [h2f] at hg
        simp at hg
        exact q_post g hg

theorem sweep_spec (o : Oracle) (db : Bool) (hmv : ∀ g, o.moveOk g = true)
    (st : WorkerState) (hnd : st.input.Nodup) :
    List.Sublist (sweep o db st).1.input st.input ∧
    (∀ x ∈ st.claimed, x ∈ (sweep o db st).1.claimed) ∧
    (sweep o db st).2.Nodup ∧
    (∀ g ∈ (sweep o db st).2, g ∈ st.input ∧ g ∉ st.claimed) ∧
    (∀ g ∈ (sweep o db st).2,
      g ∉ (sweep o db st).1.input ∨ g ∈ (sweep o db st).1.claimed) := by
  obtain ⟨h1, h2, h3, h4, h5⟩ := sweepGo_spec o db hmv (st.input.filter isImage) st hnd
  refine ⟨h1, h2, ?_, ?_, h5⟩
  · exact (hnd.filter _).sublist h3
  · intro g hg
    exact ⟨List.mem_of_mem_filter (h3.subset hg), h4 g hg⟩

theorem runSweeps_spec (db : Bool) :
    ∀ (os : List Oracle) (st : WorkerState) (done : List String),
      st.input.Nodup → done.Nodup →
      (∀ o ∈ os, ∀ g, o.moveOk g = true) →
      (∀ g ∈ done, g ∉ st.input ∨ g ∈ st.claimed) →
      (done ++ (runSweeps db os st).2).Nodup := by
  intro os
  induction os with
  | nil =>
    intro st done hnd hdn hmv hinv
    simpa [runSweeps] using hdn
  | cons o os ih =>
    intro st done hnd hdn hmv hinv
    have hmvo : ∀ g, o.moveOk g = true := fun g => hmv o (by simp) g
    obtain ⟨s1, s2, s3, s4, s5⟩ := sweep_spec o db hmvo st hnd
    have hnd1 : (sweep o db st).1.input.Nodup := hnd.sublist s1
    have hdisj : ∀ g ∈ (sweep o db st).2, g ∉ done := by
      intro g hg hgd
      obtain ⟨hin, hncl⟩ := s4 g hg
      rcases hinv g hgd with h | h
      · exact h hin
      · exact hncl h
    have hdn2 : (done ++ (sweep o db st).2).Nodup :=
      hdn.append s3 (fun a ha hb => hdisj a hb ha)
    have hinv2 : ∀ g ∈ done ++ (sweep o db st).2,
        g ∉ (sweep o db st).1.input ∨ g ∈ (sweep o db st).1.claimed := by
      intro g hg
      rcases List.mem_append.mp hg with hgd | hgt
      · rcases hinv g hgd with h | h
        · left; intro hc; exact h (s1.subset hc)
        · right; exact s2 g h
      · exact s5 g hgt
    have hmv2 : ∀ o2 ∈ os, ∀ g, o2.moveOk g = true :=
      fun o2 ho2 => hmv o2 (by simp [ho2])
    have hr := ih (sweep o db st).1 (done ++ (sweep o db st).2) hnd1 hdn2 hmv2 hinv2
    have hEq : runSweeps db (o :: os) st
        = ((runSweeps db os (sweep o db st).1).1,
           (sweep o db st).2 ++ (runSweeps db os (sweep o db st).1).2) := rfl
    rw [hEq]
    simpa [List.append_assoc] using hr

theorem sweepGo_claimed_no_attempt (o : Oracle) (db : Bool) (f : String) :
    ∀ (fs : List String) (st : WorkerState), f ∈ st.claimed →
      f ∉ (sweepGo o db fs st).2 ∧ f ∈ (sweepGo o db fs st).1.claimed := by
  intro fs
  induction fs with
  | nil =>
    intro st hf
    exact ⟨by simp [sweepGo], hf⟩
  | cons g gs ih =>
    intro st hf
    have hf1 : f ∈ (monitorHandleFile o db st g).1.claimed := mhf_claimed_mono o db st g f hf
    obtain ⟨ih1, ih2⟩ := ih (monitorHandleFile o db st g).1 hf1
    have hEq : sweepGo o db (g :: gs) st
        = ((sweepGo o db gs (monitorHandleFile o db st g).1).1,
           (if (monitorHandleFile o db st g).2 then [g] else [])
             ++ (sweepGo o db gs (monitorHandleFile o db st g).1).2) := rfl
    rw [hEq]
    refine ⟨?_, ih2⟩
    intro hc
    rcases List.mem_append.mp hc with hc1 | hc2
    · by_cases h2 : (monitorHandleFile o db st g).2 = true
      · rw [h2] at hc1
        simp at hc1
        subst hc1
        exact mhf_attempt_not_claimed o db st f h2 hf
      · have h2f : (monitorHandleFile o db st g).2 = false := by simpa using h2
        rw [h2f] at hc1
        simp at hc1
    · exact ih1 hc2

theorem runSweeps_claimed_no_attempt (db : Bool) (f : String) :
    ∀ (os : List Oracle) (st : WorkerState), f ∈ st.claimed →
      f ∉ (runSweeps db os st).2 := by
  intro os
  induction os with
  | nil =>
    intro st hf
    simp [runSweeps]
  | cons o os ih =>
    intro st hf
    obtain ⟨h1, h2⟩ := sweepGo_claimed_no_attempt o db f (st.input.filter isImage) st hf
    have hEq : runSweeps db (o :: os) st
        = ((runSweeps db os (sweep o db st).1).1,
           (sweep o db st).2 ++ (runSweeps db os (sweep o db st).1).2) := rfl
    rw [hEq]
    intro hc
    rcases List.mem_append.mp hc with hc1 | hc2
    · exact h1 hc1
    · exact ih (sweep o db st).1 h2 hc2

theorem sweepGo_saveCalls_nodb (o : Oracle) :
    ∀ (fs : List String) (st : WorkerState),
      (sweepGo o false fs st).1.saveCalls = st.saveCalls := by
  intro fs
  induction fs with
  | nil => intro st; rfl
  | cons f fs ih =>
    intro st
    have hEq : (sweepGo o false (f :: fs) st).1
        = (sweepGo o false fs (monitorHandleFile o false st f).1).1 := rfl
    rw [hEq, ih]
    exact mhf_saveCalls_nodb o st f

theorem runSweeps_saveCalls_nodb :
    ∀ (os : List Oracle) (st : WorkerState),
      (runSweeps false os st).1.saveCalls = st.saveCalls := by
  intro os
  induction os with
  | nil => intro st; rfl
  | cons o os ih =>
    intro st
    have hEq : (runSweeps false (o :: os) st).1
        = (runSweeps false os (sweep o false st).1).1 := rfl
    rw [hEq, ih]
    exact sweepGo_saveCalls_nodb o _ st

theorem processPrompts_none_of_step_none :
    ∀ (prompts : List (String × String)) (llm : String → String → Option String)
      (path ty pr : String), (ty, pr) ∈ prompts → promptStep llm path ty pr = none →
      ∀ acc, processPrompts llm path prompts acc = none := by
  intro prompts
  induction prompts with
  | nil =>
    intro llm path ty pr h
    simp at h
  | cons hd tl ih =>
    obtain ⟨t0, p0⟩ := hd
    intro llm path ty pr hmem hstep acc
    rcases List.mem_cons.mp hmem with he | ht
    · rw [Prod.mk.injEq] at he
      obtain ⟨he1, he2⟩ := he
      subst he1
      subst he2
      simp [processPrompts, hstep]
    · cases hs : promptStep llm path t0 p0 with
      | none => simp [processPrompts, hs]
      | some d =>
        simp only [processPrompts, hs]
        exact ih llm path ty pr ht hstep _

theorem publishAll_cons (st : FrameStore) (g : Frame) (gs : List Frame) :
    publishAll st (g :: gs) = publishAll (publish st g) gs := rfl

theorem publishAll_cells (frames : List Frame) :
    ∀ st : FrameStore, (publishAll st frames).cells = st.cells ++ frames := by
  induction frames with
  | nil => intro st; simp [publishAll]
  | cons g gs ih =>
    intro st
    rw [publishAll_cons, ih]
    simp [publish]

theorem publishAll_buf_concat (frames : List Frame) (f : Frame) :
    ∀ st : FrameStore, (publishAll st (frames ++ [f])).buf
      = some (st.cells.length + frames.length) := by
  induction frames with
  | nil =>
    intro st
    simp [publishAll, publish]
  | cons g gs ih =>
    intro st
    rw [List.cons_append, publishAll_cons, ih]
    simp [publish]
    omega

/-- C7: after any sequence of publishes ending in frame `f`, the frame
buffer holds `f`; a read returns `none` when nothing was ever published
and otherwise a freshly allocated copy of the most recent frame, and
mutating that returned copy leaves the buffered frame untouched.
Non-blocking behaviour is reflected in `get_current_frame` being a total
function of the held state alone. -/
theorem frame_buffer_returns_independent_copy :
    (get_current_frame emptyStore).2 = none ∧
    ∀ (frames : List Frame) (f : Frame),
      readBufContents (publishAll emptyStore (frames ++ [f])) = some f ∧
      (get_current_frame (publishAll emptyStore (frames ++ [f]))).2
        = some (publishAll emptyStore (frames ++ [f])).cells.length ∧
      cellAt (get_current_frame (publishAll emptyStore (frames ++ [f]))).1
        (publishAll emptyStore (frames ++ [f])).cells.length = f ∧
      ∀ c : Frame,
        readBufContents
          (mutateCell (get_current_frame (publishAll emptyStore (frames ++ [f]))).1
            (publishAll emptyStore (frames ++ [f])).cells.length c) = some f := by
  refine ⟨rfl, ?_⟩
  intro frames f
  have hcells : (publishAll emptyStore (frames ++ [f])).cells = frames ++ [f] := by
    simpa [emptyStore] using publishAll_cells (frames ++ [f]) emptyStore
  have hbuf : (publishAll emptyStore (frames ++ [f])).buf = some frames.length := by
    simpa [emptyStore] using publishAll_buf_concat frames f emptyStore
  have hlast : cellAt (publishAll emptyStore (frames ++ [f])) frames.length = f := by
    rw [cellAt, hcells, List.getD_eq_getElem?_getD, List.getElem?_concat_length]
    rfl
  have hlen : (publishAll emptyStore (frames ++ [f])).cells.length = frames.length + 1 := by
    rw [hcells]; simp
  have hread : readBufContents (publishAll emptyStore (frames ++ [f])) = some f := by
    rw [readBufContents, hbuf]
    exact congrArg some hlast
  have hget : get_current_frame (publishAll emptyStore (frames ++ [f]))
      = (⟨(publishAll emptyStore (frames ++ [f])).cells ++ [f],
          (publishAll emptyStore (frames ++ [f])).buf⟩,
         some (publishAll emptyStore (frames ++ [f])).cells.length) := by
    simp only [get_current_frame, hbuf, hlast]
  refine ⟨hread, by rw [hget], ?_, ?_⟩
  · rw [hget]
    simp only [cellAt]
    rw [hcells]
    rw [List.getD_eq_getElem?_getD]
    rw [List.getElem?_concat_length]
    rfl
  · intro c
    rw [hget]
    simp only [mutateCell, readBufContents]
    rw [hbuf]
    refine congrArg some ?_
    simp only [cellAt]
    rw [List.getD_eq_getElem?_getD]
    rw [List.getElem?_set_ne (by omega : (publishAll emptyStore (frames ++ [f])).cells.length ≠ frames.length)]
    rw [List.getElem?_append_left (by omega : frames.length < (publishAll emptyStore (frames ++ [f])).cells.length)]
    rw [hcells, List.getElem?_concat_length]
    rfl

/-- C5: the validator reports all missing keys at once, not just the
first: with required keys `[lap_number]` and input `{}` it returns a
failure listing exactly `lap_number`; with input `{"lap_number":5}` it
returns success; and in general, whenever some required key is missing
from an object, the failure message is built from the full ordered list
of missing keys, a list that contains every individually missing key. -/
theorem validate_reports_all_missing_keys :
    validate_json_structure (Json.obj []) ["lap_number"]
      = (false, some "Missing required keys: lap_number") ∧
    validate_json_structure (Json.obj [("lap_number", Json.num 5)]) ["lap_number"]
      = (true, none) ∧
    validate_json_structure (Json.obj []) ["lap_number", "table_type"]
      = (false, some "Missing required keys: lap_number, table_type") ∧
    ∀ (fields : List (String × Json)) (keys : List String) (k : String),
      k ∈ keys → k ∉ objKeys fields →
      validate_json_structure (Json.obj fields) keys
        = (false, some ("Missing required keys: " ++ String.intercalate ", "
            (keys.filter (fun k2 => decide (k2 ∉ objKeys fields))))) ∧
      k ∈ keys.filter (fun k2 => decide (k2 ∉ objKeys fields)) := by
  refine ⟨by rfl, by rfl, by rfl, ?_⟩
  intro fields keys k hk hnk
  have hmem : k ∈ keys.filter (fun k2 => decide (k2 ∉ objKeys fields)) :=
    List.mem_filter.mpr ⟨hk, by simpa using hnk⟩
  have hne : keys.filter (fun k2 => decide (k2 ∉ objKeys fields)) ≠ [] :=
    List.ne_nil_of_mem hmem
  refine ⟨?_, hmem⟩
  simp only [validate_json_structure]
  rw [if_neg ?_]
  intro h
  exact hne (by simpa [List.isEmpty_iff] using h)

/-- C5 witness: the general clause of the theorem applied at the empty
object with two required keys. -/
theorem validate_reports_all_missing_keys_witness :
    validate_json_structure (Json.obj []) ["lap_number", "table_type"]
      = (false, some ("Missing required keys: " ++ String.intercalate ", "
          ((["lap_number", "table_type"] : List String).filter
            (fun k2 => decide (k2 ∉ objKeys ([] : List (String × Json))))))) ∧
    "lap_number" ∈ (["lap_number", "table_type"] : List String).filter
      (fun k2 => decide (k2 ∉ objKeys ([] : List (String × Json)))) :=
  validate_reports_all_missing_keys.2.2.2 [] ["lap_number", "table_type"] "lap_number"
    (by decide) (by decide)

/-- C6 counterexample: the claim maps `full_extraction` to
`[lap_number, table_type]`, but the code's validation map has no such
entry — the `dict.get` default returns the empty list. -/
theorem required_keys_full_extraction_counterexample :
    _get_required_keys "full_extraction" = [] ∧
    _get_required_keys "full_extraction" ≠ ["lap_number", "table_type"] := by
  exact ⟨rfl, by decide⟩

/-- C6 amended: the static map is `current_lap ↦ [lap_number]`,
`timing_table ↦ [timing_table]`, `tire_info ↦ []`; `full_extraction` is
absent and, like every extraction type other than the first two, yields
the empty required-key list. -/
theorem required_key_map_contents :
    _get_required_keys "current_lap" = ["lap_number"] ∧
    _get_required_keys "timing_table" = ["timing_table"] ∧
    _get_required_keys "tire_info" = [] ∧
    _get_required_keys "full_extraction" = [] ∧
    ∀ t : String, t ≠ "current_lap" → t ≠ "timing_table" → _get_required_keys t = [] := by
  refine ⟨rfl, rfl, rfl, rfl, ?_⟩
  intro t h1 h2
  simp only [_get_required_keys, if_neg h1, if_neg h2]
  split <;> rfl

/-- C6 witness: the default clause of the map theorem applied at the
extraction type named by the claim. -/
theorem required_key_map_contents_witness :
    _get_required_keys "full_extraction" = [] :=
  required_key_map_contents.2.2.2.2 "full_extraction" (by decide) (by decide)

/-- C8: the periodic capture loop of `main.py` never consults the
`periodic_enabled` pause/resume flag: the flag defaults to set, and in
`manual` mode no tick ever occurs, but with mode `periodic` a running
iteration ticks even while the flag is cleared — one tick per iteration
regardless of the flag's value. -/
theorem periodic_loop_ignores_pause_flag :
    periodic_enabled_default = true ∧
    (∀ s, periodic_ticks "manual" s = 0) ∧
    periodic_ticks "periodic" [(true, false)] = 1 ∧
    periodic_ticks "periodic" [(true, false), (true, false)] = 2 ∧
    (∀ s, periodic_ticks "both" s = periodic_ticks "periodic" s) := by
  exact ⟨rfl, fun s => rfl, rfl, rfl, fun s => rfl⟩

/-- C3 counterexample: the code hands the raw response text directly to
`json.loads`, so the trailing-comma artifact `{"a":1,}` named by the
claim is a parse failure, not the object `{"a":1}`. -/
theorem sanitizer_absent_counterexample :
    code_response_parse "\x7b\"a\":1,\x7d" = none ∧
    code_response_parse "\x7b\"a\":1,\x7d" ≠ some (Json.obj [("a", Json.num 1)]) := by
  refine ⟨rfl, ?_⟩
  intro h
  rw [show code_response_parse "\x7b\"a\":1,\x7d" = none from rfl] at h
  exact Option.noConfusion h

/-- C3 amended: the source performs no response sanitation — the raw LLM
text goes straight to `json.loads`.  Plain valid JSON parses; the
trailing-comma form and the fence-wrapped form named by the claim are
parse failures in the code.  The sanitizer the spec describes
(`spec_sanitize`, defined here from the spec's words only) would indeed
repair both forms, which is exactly what the code does not do. -/
theorem response_parsing_has_no_sanitizer :
    (∀ raw, code_response_parse raw = json_loads raw) ∧
    code_response_parse "\x7b\"a\":1\x7d" = some (Json.obj [("a", Json.num 1)]) ∧
    code_response_parse "\x7b\"a\":1,\x7d" = none ∧
    code_response_parse "```json\n\x7b\"a\":1\x7d\n```" = none ∧
    json_loads (spec_sanitize "\x7b\"a\":1,\x7d") = some (Json.obj [("a", Json.num 1)]) ∧
    json_loads (spec_sanitize "```json\n\x7b\"a\":1\x7d\n```")
      = some (Json.obj [("a", Json.num 1)]) := by
  exact ⟨fun raw => rfl, rfl, rfl, rfl, rfl, rfl⟩

/-- C10: whenever an extraction type's required-key list is empty — as
for `tire_info` or any type absent from the validation map — no
structure validation runs: any JSON-parseable response value, object or
not, is accepted, and a single-prompt image aggregates it into the
extraction result. -/
theorem empty_required_keys_skip_validation :
    ∀ t : String, _get_required_keys t = [] →
    ∀ (llm : String → String → Option String) (path prompt txt : String) (v : Json)
      (ts : String),
      llm path prompt = some txt → json_loads txt = some v →
      promptStep llm path t prompt = some v ∧
      _process_image llm ts path [(t, prompt)]
        = some { image_filename := basename path, timestamp := ts, extractions := [(t, v)] } := by
  intro t ht llm path prompt txt v ts h1 h2
  have hs : promptStep llm path t prompt = some v := by
    simp [promptStep, code_response_parse, h1, h2, ht]
  exact ⟨hs, by simp [_process_image, processPrompts, hs]⟩

/-- C10 witness: a JSON array response for `tire_info` is accepted
without validation. -/
theorem empty_required_keys_skip_validation_witness :
    promptStep (fun _ _ => some "[1, 2]") "data/input/a.jpg" "tire_info" "q"
      = some (Json.arr [Json.num 1, Json.num 2]) ∧
    _process_image (fun _ _ => some "[1, 2]") "T" "data/input/a.jpg" [("tire_info", "q")]
      = some { image_filename := "a.jpg", timestamp := "T",
               extractions := [("tire_info", Json.arr [Json.num 1, Json.num 2])] } :=
  empty_required_keys_skip_validation "tire_info" rfl (fun _ _ => some "[1, 2]")
    "data/input/a.jpg" "q" "[1, 2]" (Json.arr [Json.num 1, Json.num 2]) "T" rfl rfl


/-- C1 (amended): if any configured prompt's dispatch call, JSON parse,
or validation fails, `_process_image` returns `None`, so the whole file
is aborted: nothing is ever handed to the persistence collaborator, an
ErrorRecord is written and the file moves to the failed directory — but
the record's kind is the single generic `PROCESSING_FAILED` used for
every processing failure, not a distinct ValidationFailure kind. -/
theorem failed_prompt_aborts_whole_file :
    ∀ (llm : String → String → Option String) (ts path : String)
      (prompts : List (String × String)) (ty pr : String),
      (ty, pr) ∈ prompts → promptStep llm path ty pr = none →
      _process_image llm ts path prompts = none ∧
      ∀ (o : Oracle) (db : Bool) (st : WorkerState) (f : String),
        f ∉ st.claimed → o.procResult f = _process_image llm ts path prompts →
        o.moveOk f = true →
        (monitorHandleFile o db st f).1.saveCalls = st.saveCalls ∧
        (monitorHandleFile o db st f).1.errorLogs
          = st.errorLogs ++ [(f, "PROCESSING_FAILED", "Image processing failed")] ∧
        (monitorHandleFile o db st f).1.failedDir = st.failedDir ++ [f] ∧
        (monitorHandleFile o db st f).1.input = st.input.erase f ∧
        (monitorHandleFile o db st f).2 = true := by
  intro llm ts path prompts ty pr hmem hstep
  have hnone : _process_image llm ts path prompts = none := by
    rw [_process_image, processPrompts_none_of_step_none prompts llm path ty pr hmem hstep []]
  refine ⟨hnone, ?_⟩
  intro o db st f hncl hproc hmv
  have hpf : o.procResult f = none := by rw [hproc, hnone]
  have hm : monitorHandleFile o db st f
      = (⟨st.input.erase f, st.claimed, st.failedDir ++ [f], st.processedDir,
          st.errorLogs ++ [(f, "PROCESSING_FAILED", "Image processing failed")],
          st.saveCalls⟩, true) := by
    simp [monitorHandleFile, hncl, hpf, hmv]
  rw [hm]
  exact ⟨rfl, rfl, rfl, rfl, rfl⟩

/-- C1 witness: two prompts, the second failing validation — the file is
aborted with no persistence call, a `PROCESSING_FAILED` record, and a
move to failed. -/
theorem failed_prompt_aborts_whole_file_witness :
    _process_image c1_llm "T" "data/input/img.jpg" c1_prompts = none ∧
    (monitorHandleFile c1_oracle false c1_state "img.jpg").1.saveCalls = [] ∧
    (monitorHandleFile c1_oracle false c1_state "img.jpg").1.errorLogs
      = [("img.jpg", "PROCESSING_FAILED", "Image processing failed")] ∧
    (monitorHandleFile c1_oracle false c1_state "img.jpg").1.failedDir = ["img.jpg"] := by
  have h := failed_prompt_aborts_whole_file c1_llm "T" "data/input/img.jpg" c1_prompts
    "timing_table" "p2" (by simp [c1_prompts]) (by rfl)
  have h2 := h.2 c1_oracle false c1_state "img.jpg" (by simp [c1_state]) (by rfl) (by rfl)
  refine ⟨h.1, ?_, ?_, ?_⟩
  · rw [h2.1]; rfl
  · rw [h2.2.1]; rfl
  · rw [h2.2.2.1]; rfl

/-- C1 counterexample: in the very scenario the claim describes (prompt 2
of 2 fails validation) the ErrorRecord kind is `PROCESSING_FAILED`, the
same kind produced by a dispatch failure — there is no
ValidationFailure-specific kind. -/
theorem error_kind_not_validation_failure :
    (monitorHandleFile c1_oracle false c1_state "img.jpg").1.errorLogs
      = [("img.jpg", "PROCESSING_FAILED", "Image processing failed")] ∧
    (monitorHandleFile c1_dispatch_oracle false c1_state "img.jpg").1.errorLogs
      = [("img.jpg", "PROCESSING_FAILED", "Image processing failed")] ∧
    "PROCESSING_FAILED" ≠ "ValidationFailure" := by
  exact ⟨rfl, rfl, by decide⟩

/-- C2 counterexample: when the database save raises after successful
extraction, the file does not move to the failed directory — it stays in
the input directory (the loop `continue`s without any move). -/
theorem db_failure_file_stays_counterexample :
    (monitorHandleFile c2_oracle true c2_state "b.jpg").1.failedDir = [] ∧
    (monitorHandleFile c2_oracle true c2_state "b.jpg").1.input = ["b.jpg"] ∧
    (monitorHandleFile c2_oracle true c2_state "b.jpg").1.errorLogs
      = [("b.jpg", "DATABASE_ERROR", "Failed to save to database: disk full")] := by
  exact ⟨rfl, rfl, rfl⟩

/-- C2 (amended): when persistence raises on a successfully extracted
image, a `DATABASE_ERROR` ErrorRecord is written, but the file is left
in the input directory (not moved to failed); it is nevertheless never
reprocessed in this process lifetime, because the filename entered the
claimed-set before the save attempt and later sweeps skip claimed
filenames. -/
theorem db_failure_logs_and_leaves_in_input :
    ∀ (o : Oracle) (st : WorkerState) (f : String) (r : ExtractionResults),
      f ∉ st.claimed → o.procResult f = some r → o.dbOk f = false →
      (monitorHandleFile o true st f).2 = true ∧
      (monitorHandleFile o true st f).1.input = st.input ∧
      (monitorHandleFile o true st f).1.failedDir = st.failedDir ∧
      (monitorHandleFile o true st f).1.errorLogs
        = st.errorLogs ++ [(f, "DATABASE_ERROR", "Failed to save to database: " ++ o.dbErr f)] ∧
      (monitorHandleFile o true st f).1.saveCalls = st.saveCalls ++ [r] ∧
      f ∈ (monitorHandleFile o true st f).1.claimed ∧
      ∀ (os : List Oracle) (db2 : Bool),
        f ∉ (runSweeps db2 os (monitorHandleFile o true st f).1).2 := by
  intro o st f r hncl hproc hdb
  have hm : monitorHandleFile o true st f
      = (⟨st.input, st.claimed ++ [f], st.failedDir, st.processedDir,
          st.errorLogs ++ [(f, "DATABASE_ERROR", "Failed to save to database: " ++ o.dbErr f)],
          st.saveCalls ++ [r]⟩, true) := by
    simp [monitorHandleFile, hncl, hproc, hdb]
  rw [hm]
  refine ⟨rfl, rfl, rfl, rfl, rfl, by simp, ?_⟩
  intro os db2
  exact runSweeps_claimed_no_attempt db2 f os _ (by simp)

/-- C2 witness: the database-failure scenario evaluated — error kind
`DATABASE_ERROR`, file still in input, filename claimed. -/
theorem db_failure_logs_and_leaves_in_input_witness :
    (monitorHandleFile c2_oracle true c2_state "b.jpg").1.input = ["b.jpg"] ∧
    (monitorHandleFile c2_oracle true c2_state "b.jpg").1.errorLogs
      = [("b.jpg", "DATABASE_ERROR", "Failed to save to database: disk full")] ∧
    "b.jpg" ∈ (monitorHandleFile c2_oracle true c2_state "b.jpg").1.claimed := by
  have h := db_failure_logs_and_leaves_in_input c2_oracle c2_state "b.jpg" c2_results
    (by simp [c2_state]) (by rfl) (by rfl)
  refine ⟨?_, ?_, h.2.2.2.2.2.1⟩
  · rw [h.2.1]; rfl
  · rw [h.2.2.2.1]; rfl

/-- C4 counterexample: a file whose processing fails and whose move to
the failed directory also fails is re-attempted on the next sweep — the
filename receives two processing attempts in one process lifetime. -/
theorem at_most_once_counterexample :
    (runSweeps false [c4_stuck_oracle, c4_stuck_oracle] c4_state).2 = ["a.jpg", "a.jpg"] ∧
    (runSweeps false [c4_stuck_oracle, c4_stuck_oracle] c4_state).2.count "a.jpg" = 2 := by
  exact ⟨rfl, rfl⟩

/-- C4 (amended): the in-memory claimed-set records only successful
processing, so the at-most-one-attempt-per-filename guarantee holds
under the proviso that every `_move_file` call succeeds; without that
proviso a failed file whose move also fails is re-attempted.  Over any
run of sweeps with all moves succeeding, the attempt trace repeats no
filename. -/
theorem at_most_one_attempt_when_moves_succeed :
    ∀ (os : List Oracle) (db : Bool) (st : WorkerState),
      st.input.Nodup →
      (∀ o ∈ os, ∀ g, o.moveOk g = true) →
      (runSweeps db os st).2.Nodup ∧
      ∀ f : String, (runSweeps db os st).2.count f ≤ 1 := by
  intro os db st hnd hmv
  have h := runSweeps_spec db os st [] hnd (by simp) hmv (by simp)
  have hnodup : (runSweeps db os st).2.Nodup := by simpa using h
  exact ⟨hnodup, fun f => List.nodup_iff_count_le_one.mp hnodup f⟩

/-- C4 witness: with moves succeeding, two sweeps over one failed file
attempt it exactly once. -/
theorem at_most_one_attempt_witness :
    (runSweeps false [c4_move_oracle, c4_move_oracle] c4_state).2.Nodup ∧
    ∀ f : String, (runSweeps false [c4_move_oracle, c4_move_oracle] c4_state).2.count f ≤ 1 := by
  refine at_most_one_attempt_when_moves_succeed [c4_move_oracle, c4_move_oracle] false
    c4_state (by simp [c4_state]) ?_
  intro o ho g
  have ho2 : o = c4_move_oracle := by
    rcases List.mem_cons.mp ho with h | h
    · exact h
    · simpa using h
  rw [ho2]
  rfl

/-- C9: the main application wires the inference worker with
`database_handler=None`; under that wiring no persistence call is ever
made across any run of sweeps, and an image whose extractions all
succeed and validate moves directly to the processed directory. -/
theorem no_database_handler_no_persistence :
    main_database_handler_present = false ∧
    (∀ (os : List Oracle) (st : WorkerState),
      (runSweeps main_database_handler_present os st).1.saveCalls = st.saveCalls) ∧
    ∀ (llm : String → String → Option String) (ts path : String)
      (prompts : List (String × String)) (r : ExtractionResults)
      (o : Oracle) (st : WorkerState) (f : String),
      _process_image llm ts path prompts = some r →
      o.procResult f = _process_image llm ts path prompts →
      f ∉ st.claimed → o.moveOk f = true →
      (monitorHandleFile o main_database_handler_present st f).1.saveCalls = st.saveCalls ∧
      (monitorHandleFile o main_database_handler_present st f).1.processedDir
        = st.processedDir ++ [f] ∧
      (monitorHandleFile o main_database_handler_present st f).1.input = st.input.erase f ∧
      (monitorHandleFile o main_database_handler_present st f).2 = true := by
  refine ⟨rfl, fun os st => runSweeps_saveCalls_nodb os st, ?_⟩
  intro llm ts path prompts r o st f hsome hproc hncl hmv
  have hpf : o.procResult f = some r := by rw [hproc, hsome]
  have hm : monitorHandleFile o main_database_handler_present st f
      = (⟨st.input.erase f, st.claimed ++ [f], st.failedDir, st.processedDir ++ [f],
          st.errorLogs, st.saveCalls⟩, true) := by
    simp [monitorHandleFile, main_database_handler_present, hncl, hpf, hmv]
  rw [hm]
  exact ⟨rfl, rfl, rfl, rfl⟩

/-- C9 witness: both prompts succeed and validate; no save call is made
and the file lands in processed. -/
theorem no_database_handler_no_persistence_witness :
    (monitorHandleFile c9_oracle main_database_handler_present c9_state "img.jpg").1.saveCalls
      = [] ∧
    (monitorHandleFile c9_oracle main_database_handler_present c9_state "img.jpg").1.processedDir
      = ["img.jpg"] ∧
    (monitorHandleFile c9_oracle main_database_handler_present c9_state "img.jpg").2 = true := by
  have h := no_database_handler_no_persistence.2.2 c9_llm "T" "data/input/img.jpg" c9_prompts
    ⟨"img.jpg", "T", [("current_lap", Json.obj [("lap_number", Json.num 3)]),
                      ("timing_table", Json.obj [("timing_table", Json.arr [])])]⟩
    c9_oracle c9_state "img.jpg" (by rfl) (by rfl) (by simp [c9_state]) (by rfl)
  refine ⟨?_, ?_, h.2.2.2⟩
  · rw [h.1]; rfl
  · rw [h.2.1]; rfl
